import Mathlib

/-!
Verification of the travel-ticket dashboard (`streamlit_app.py`).

The program loads a CSV of ticket records, derives columns
(`DaysUntilDeparture`, `PriceCategory`, `Gender`), filters the table by
sidebar controls, and computes metrics, chart series and summary tables
over the filtered view.  We embed the table as a `List Record`, the
derived columns as pure functions of a record's raw fields, and the
filter/aggregate pipeline as executable functions, then prove the spec's
claims about them.

Conventions of the embedding:
* `Price`, `Male`, `Cancel`, `CouponDiscount` are integers (the dataset
  stores plain numerals; the slider bounds go through Python `int`,
  which is the identity on integers).
* Timestamps (`Created`, `DepartureTime`) are integer seconds; pandas
  `Timedelta.dt.days` is floor division by 86400 seconds.
* A missing/unlabeled categorical value (pandas `NaN`) is `Option.none`.
-/

namespace Dashboard

/-- One row of the loaded table: the raw columns of `EDA_cleaned.csv`
that the app reads.  Derived columns are functions of these fields. -/
structure Record where
  Vehicle : String
  TripReason : String
  Domestic : String
  Cancel : Int
  Price : Int
  CouponDiscount : Int
  Male : Int
  From : String
  To : String
  Created : Int
  DepartureTime : Int
deriving Repr, DecidableEq

/-- Line 24: `df["DaysUntilDeparture"] = (df["DepartureTime"] - df["Created"]).dt.days`:
pandas `Timedelta.days` floor-divides the signed difference by one day
(86400 s), so a departure one hour before creation gives `-1`. -/
def daysUntilDeparture (r : Record) : Int :=
  Int.fdiv (r.DepartureTime - r.Created) 86400

/-- Lines 27-29: `pd.cut(df["Price"], bins=[0, 1000000, 5000000, 10000000, inf],
labels=["<1M", "1M-5M", "5M-10M", ">10M"])` with the default `right=True`:
left-open, right-closed intervals; values not in any interval (here
`Price ≤ 0`) get the null category. -/
def priceCategory (p : Int) : Option String :=
  if 0 < p ∧ p ≤ 1000000 then some "<1M"
  else if 1000000 < p ∧ p ≤ 5000000 then some "1M-5M"
  else if 5000000 < p ∧ p ≤ 10000000 then some "5M-10M"
  else if 10000000 < p then some ">10M"
  else none

/-- Line 32: `df["Gender"] = df["Male"].map(1 to "Male", 0 to "Female")`: any value
other than 0 or 1 maps to the missing value (`NaN` in pandas). -/
def gender (m : Int) : Option String :=
  if m = 1 then some "Male" else if m = 0 then some "Female" else none

/-! ### List utilities mirroring the pandas primitives

`uniqueVals` is `Series.unique()` (distinct values in first-seen order).
`sortBy`/`insertBy` is a stable insertion sort; pandas sorts with
`ascending=False` by reversing an ascending argsort (`nargsort`), which
we model as `(sortBy le l).reverse`. -/

/-- Pandas `Series.unique()`: the distinct values of a column, first occurrence
first. -/
def uniqueVals {α : Type} [DecidableEq α] : List α → List α
  | [] => []
  | x :: xs => x :: uniqueVals (xs.filter (fun y => y ≠ x))
termination_by l => l.length
decreasing_by
  simp only [List.length_cons]
  exact Nat.lt_succ_of_le (xs.length_filter_le _)

/-- Insert `x` into `l` before the first element `y` with `le x y`. -/
def insertBy {α : Type} (le : α → α → Bool) (x : α) : List α → List α
  | [] => [x]
  | y :: ys => if le x y then x :: y :: ys else y :: insertBy le x ys

/-- Stable insertion sort by the boolean comparator `le`. -/
def sortBy {α : Type} (le : α → α → Bool) : List α → List α
  | [] => []
  | x :: xs => insertBy le x (sortBy le xs)

/-- Minimum of an integer column (`Series.min()`); 0 on the empty list,
which the app never queries. -/
def listMinI : List Int → Int
  | [] => 0
  | x :: xs => xs.foldl min x

/-- Maximum of an integer column (`Series.max()`). -/
def listMaxI : List Int → Int
  | [] => 0
  | x :: xs => xs.foldl max x

/-! ### Filter controller and filtered view -/

/-- The sidebar state: one multiselect per categorical dimension and the
`Price` range slider.  `gender_filter` selects over the derived `Gender`
column, whose missing value (`NaN` for `Male ∉ {0,1}`) is `none`. -/
structure FilterState where
  vehicle_types : List String
  trip_reasons : List String
  domestic_filter : List String
  cancel_filter : List Int
  gender_filter : List (Option String)
  price_lo : Int
  price_hi : Int
deriving Repr, DecidableEq

/-- The sidebar defaults: every multiselect starts as the full set of
distinct values of its column in the loaded table
(`options=default=df[col].unique()`), and the price slider starts at
`(int(df.Price.min()), int(df.Price.max()))` (Python `int` is the
identity here because prices are integers). -/
def defaultState (df : List Record) : FilterState where
  vehicle_types := uniqueVals (df.map Record.Vehicle)
  trip_reasons := uniqueVals (df.map Record.TripReason)
  domestic_filter := uniqueVals (df.map Record.Domestic)
  cancel_filter := uniqueVals (df.map Record.Cancel)
  gender_filter := uniqueVals (df.map (fun r => gender r.Male))
  price_lo := listMinI (df.map Record.Price)
  price_hi := listMaxI (df.map Record.Price)

/-- One `if sel: d = d[d[col].isin(sel)]` step: a Python empty list is
falsy, so an empty selection applies no filter on that dimension. -/
def applyCatFilter {α : Type} [DecidableEq α] (sel : List α) (f : Record → α)
    (d : List Record) : List Record :=
  if sel.isEmpty then d else d.filter (fun r => decide (f r ∈ sel))

/-- The sequence of filters of `streamlit_app.py` lines 93–111, in source
order: the five categorical filters, then the unconditional price-range
filter (inclusive on both ends). -/
def df_selection (df : List Record) (s : FilterState) : List Record :=
  let d := applyCatFilter s.vehicle_types Record.Vehicle df
  let d := applyCatFilter s.trip_reasons Record.TripReason d
  let d := applyCatFilter s.domestic_filter Record.Domestic d
  let d := applyCatFilter s.cancel_filter Record.Cancel d
  let d := applyCatFilter s.gender_filter (fun r => gender r.Male) d
  d.filter (fun r => decide (s.price_lo ≤ r.Price) && decide (r.Price ≤ s.price_hi))

/-- Whether one categorical dimension passes a record: an empty selection
passes everything, a non-empty one requires membership (OR across the
selected values). -/
def catPass {α : Type} [DecidableEq α] (sel : List α) (x : α) : Bool :=
  sel.isEmpty || decide (x ∈ sel)

/-- The conjunction of all six per-dimension predicates. -/
def satisfiesAll (s : FilterState) (r : Record) : Bool :=
  catPass s.vehicle_types r.Vehicle &&
  catPass s.trip_reasons r.TripReason &&
  catPass s.domestic_filter r.Domestic &&
  catPass s.cancel_filter r.Cancel &&
  catPass s.gender_filter (gender r.Male) &&
  (decide (s.price_lo ≤ r.Price) && decide (r.Price ≤ s.price_hi))

/-- The six filterable dimensions. -/
inductive Dim where
  | vehicle | trip | domestic | cancel | gender | price
deriving DecidableEq, Repr

/-- The per-dimension pass predicate. -/
def dimPass (s : FilterState) : Dim → Record → Bool
  | .vehicle => fun r => catPass s.vehicle_types r.Vehicle
  | .trip => fun r => catPass s.trip_reasons r.TripReason
  | .domestic => fun r => catPass s.domestic_filter r.Domestic
  | .cancel => fun r => catPass s.cancel_filter r.Cancel
  | .gender => fun r => catPass s.gender_filter (gender r.Male)
  | .price => fun r => decide (s.price_lo ≤ r.Price) && decide (r.Price ≤ s.price_hi)

/-- One dimension's filtering step as the source performs it. -/
def dimFilter (s : FilterState) (d : Dim) (t : List Record) : List Record :=
  match d with
  | .vehicle => applyCatFilter s.vehicle_types Record.Vehicle t
  | .trip => applyCatFilter s.trip_reasons Record.TripReason t
  | .domestic => applyCatFilter s.domestic_filter Record.Domestic t
  | .cancel => applyCatFilter s.cancel_filter Record.Cancel t
  | .gender => applyCatFilter s.gender_filter (fun r => gender r.Male) t
  | .price => t.filter (fun r => decide (s.price_lo ≤ r.Price) && decide (r.Price ≤ s.price_hi))

/-- Apply the per-dimension filters in a chosen order. -/
def applyDims (s : FilterState) (order : List Dim) (df : List Record) : List Record :=
  order.foldl (fun t d => dimFilter s d t) df

/-- The source's fixed application order (lines 96–111). -/
def sourceOrder : List Dim :=
  [Dim.vehicle, Dim.trip, Dim.domestic, Dim.cancel, Dim.gender, Dim.price]

/-! ### Aggregations over the filtered view -/

/-- Pandas `Series.mean()` as an exact rational (0 on an empty column, which the
app never displays: every group it aggregates is non-empty). -/
def mean (l : List ℚ) : ℚ := l.sum / l.length

/-- Python `round(x, 2)`: rounding to two decimal places.  (The model rounds
exact rationals, ties upward; the source rounds binary floats.) -/
def round2 (q : ℚ) : ℚ := (round (q * 100) : ℤ) / 100

/-- Pandas `Series.median()`: middle element of the sorted values, or the mean
of the two middle elements for an even count. -/
def median (l : List ℚ) : ℚ :=
  let s := sortBy (fun a b => decide (a ≤ b)) l
  let n := s.length
  if n = 0 then 0
  else if n % 2 = 1 then s.getD (n / 2) 0
  else (s.getD (n / 2 - 1) 0 + s.getD (n / 2) 0) / 2

/-- Pandas `Series.value_counts()`: occurrence count per distinct value, sorted
descending by count (modelled as the reverse of a stable ascending
sort, matching pandas `nargsort` with `ascending=False`). -/
def value_counts {α : Type} [DecidableEq α] (l : List α) : List (α × Nat) :=
  (sortBy (fun a b => decide (a.2 ≤ b.2)) (l.dedup.map (fun k => (k, l.count k)))).reverse

/-- Pandas `df.groupby(key)[val].mean()`: `groupby` with the default
`sort=True` lists the groups in ascending key order. -/
def groupbyMean (key : Record → String) (val : Record → ℚ) (v : List Record) :
    List (String × ℚ) :=
  (sortBy (fun a b => decide (a ≤ b)) (v.map key).dedup).map
    (fun g => (g, mean ((v.filter (fun r => key r = g)).map val)))

/-- The four scalar metrics (lines 124–138).  `cancellation_rate` is kept
exact here; the host renders it with one decimal place. -/
structure Metrics where
  total_tickets : Nat
  avg_price : ℚ
  cancellation_rate : ℚ
  avg_discount : ℚ
deriving Repr, DecidableEq

/-- Lines 124–138 of the source. -/
def metrics (v : List Record) : Metrics where
  total_tickets := v.length
  avg_price := round2 (mean (v.map (fun r => (r.Price : ℚ))))
  cancellation_rate := ((v.map Record.Cancel).sum : ℚ) / (v.length : ℚ) * 100
  avg_discount := round2 (mean (v.map (fun r => (r.CouponDiscount : ℚ))))

/-- Python `f"{x:.1f}%"` for the non-negative rates produced here: one decimal
place (ties upward in the model; the source formats a binary float). -/
def fmtPct1 (q : ℚ) : String :=
  let n : ℤ := round (q * 10)
  toString (n / 10) ++ "." ++ toString (n % 10) ++ "%"

/-- The `i`-th of `k` equal-width bin edges spanning `[mn, mx]`
(`numpy.linspace(mn, mx, k+1)` as used by `pd.cut` for an integer
`bins` argument). -/
def histEdge (mn mx : ℚ) (k i : ℕ) : ℚ := mn + (mx - mn) * i / k

/-- Whether a price falls in bin `i` of `k`: `pd.cut` makes each bin
left-open/right-closed, with the first bin additionally containing the
minimum (the source lowers its displayed left edge by 0.1% of the range
for that purpose). -/
def inBin (mn mx : ℚ) (k i : ℕ) (p : ℚ) : Bool :=
  if i = 0 then decide (mn ≤ p ∧ p ≤ histEdge mn mx k 1)
  else decide (histEdge mn mx k i < p ∧ p ≤ histEdge mn mx k (i + 1))

/-- The view's minimum price as a rational: the lower histogram bound. -/
def priceMinQ (v : List Record) : ℚ := ((listMinI (v.map Record.Price) : ℤ) : ℚ)

/-- The view's maximum price as a rational: the upper histogram bound. -/
def priceMaxQ (v : List Record) : ℚ := ((listMaxI (v.map Record.Price) : ℤ) : ℚ)

/-- Line 193: `df_selection["Price"].value_counts(bins=k).sort_index()`:
`k` equal-width bins over `[min Price, max Price]`, every bin present
(empty ones with count 0), listed ascending by bin, each labelled by its
numeric lower/upper edge. -/
def price_histogram (v : List Record) (k : ℕ) : List (ℚ × ℚ × Nat) :=
  (List.range k).map (fun i =>
    (histEdge (priceMinQ v) (priceMaxQ v) k i,
     histEdge (priceMinQ v) (priceMaxQ v) k (i + 1),
     (v.filter (fun r => inBin (priceMinQ v) (priceMaxQ v) k i (r.Price : ℚ))).length))

/-- The seven chart series of lines 148–193. -/
structure Charts where
  vehicle_counts : List (String × Nat)
  avg_price_vehicle : List (String × ℚ)
  avg_price_reason : List (String × ℚ)
  cancel_by_vehicle : List (String × ℚ)
  gender_counts : List (String × Nat)
  avg_days : List (String × ℚ)
  price_hist : List (ℚ × ℚ × Nat)
deriving Repr, DecidableEq

/-- Line 181: `df_selection["Gender"].value_counts()` — `value_counts`
drops the missing value, so records with `Male ∉ {0, 1}` are not
counted in any gender bar. -/
def gender_counts (v : List Record) : List (String × Nat) :=
  value_counts (v.filterMap (fun r => gender r.Male))

/-- Lines 148–193 of the source; `bins` is the value of the bin-count
slider (range 10–100, default 50). -/
def charts (v : List Record) (bins : ℕ) : Charts where
  vehicle_counts := value_counts (v.map Record.Vehicle)
  avg_price_vehicle := groupbyMean Record.Vehicle (fun r => (r.Price : ℚ)) v
  avg_price_reason := groupbyMean Record.TripReason (fun r => (r.Price : ℚ)) v
  cancel_by_vehicle :=
    (groupbyMean Record.Vehicle (fun r => (r.Cancel : ℚ)) v).map
      (fun g => (g.1, g.2 * 100))
  gender_counts := gender_counts v
  avg_days := groupbyMean Record.Vehicle (fun r => (daysUntilDeparture r : ℚ)) v
  price_hist := price_histogram v bins

/-- A string as its list of Unicode code points; Python (and hence
pandas) compares strings lexicographically on exactly these. -/
def strKey (s : String) : List ℕ := s.data.map (fun c => c.toNat)

/-- Lexicographic comparison of `(From, To)` pairs, the order in which
pandas `groupby(["From", "To"])` lists its groups. -/
def pairLE (a b : String × String) : Bool :=
  decide (strKey a.1 < strKey b.1 ∨ (strKey a.1 = strKey b.1 ∧ strKey a.2 ≤ strKey b.2))

/-- Line 209: `df_selection.groupby(["From", "To"]).size()
.sort_values(ascending=False).head(10)`.  `groupby` (default
`sort=True`) lists the distinct route pairs in ascending lexicographic
order; `sort_values(ascending=False)` reverses a stable ascending
argsort by count; `head(10)` takes the first ten. -/
def route_counts (v : List Record) : List ((String × String) × Nat) :=
  let keys := sortBy pairLE (v.map (fun r => (r.From, r.To))).dedup
  let groups := keys.map (fun k => (k, v.countP (fun r => decide ((r.From, r.To) = k))))
  ((sortBy (fun a b => decide (a.2 ≤ b.2)) groups).reverse).take 10

/-- One row of the per-vehicle rollup (lines 200–204): vehicle, count of
`Price`, mean `Price`, median `Price`, mean `Cancel`, mean
`DaysUntilDeparture`, numeric statistics rounded to 2 decimals. -/
def summary_table (v : List Record) :
    List (String × ℕ × ℚ × ℚ × ℚ × ℚ) :=
  (sortBy (fun a b => decide (a ≤ b)) (v.map Record.Vehicle).dedup).map
    (fun g =>
      let grp := v.filter (fun r => r.Vehicle = g)
      (g, grp.length,
        round2 (mean (grp.map (fun r => (r.Price : ℚ)))),
        round2 (median (grp.map (fun r => (r.Price : ℚ)))),
        round2 (mean (grp.map (fun r => (r.Cancel : ℚ)))),
        round2 (mean (grp.map (fun r => (daysUntilDeparture r : ℚ))))))

/-- The two summary tables of lines 200–210. -/
structure Tables where
  summary : List (String × ℕ × ℚ × ℚ × ℚ × ℚ)
  routes : List ((String × String) × Nat)
deriving Repr, DecidableEq

/-- The result of one render pass: either the terminal warning banner of
lines 114–116, or the full page.  `raw` with `rows`/`cols` is the raw
data preview of lines 213–215 (the filtered view verbatim plus its
dimensions; the table has the 11 source columns plus 3 derived ones). -/
inductive RenderOutput where
  | warning (msg : String)
  | page (m : Metrics) (c : Charts) (t : Tables) (raw : List Record) (rows cols : ℕ)
deriving Repr, DecidableEq

/-- One top-to-bottom render pass over the loaded table: filter, stop at
the warning if the view is empty (`st.stop()`, line 116), otherwise
compute every downstream section. -/
def render (df : List Record) (s : FilterState) (bins : ℕ) : RenderOutput :=
  let v := df_selection df s
  if v.isEmpty then
    .warning "No data available for the selected filters. Please adjust your selection."
  else
    .page (metrics v) (charts v bins)
      { summary := summary_table v, routes := route_counts v }
      v v.length 14

/-! ### Concrete sample data for instance checks -/

/-- A concrete record builder for sample tables. -/
def mkR (veh reason dom : String) (cancel price disc male : Int)
    (src dst : String) (created dep : Int) : Record where
  Vehicle := veh
  TripReason := reason
  Domestic := dom
  Cancel := cancel
  Price := price
  CouponDiscount := disc
  Male := male
  From := src
  To := dst
  Created := created
  DepartureTime := dep

/-- A small sample table: three vehicles, one record with `Male = 5`
(an unlabeled gender), integer prices. -/
def dfW : List Record :=
  [mkR "Bus" "Work" "Yes" 0 500000 0 1 "A" "B" 0 86400,
   mkR "Train" "Fun" "No" 1 2500000 10 0 "B" "C" 0 172800,
   mkR "Plane" "Work" "Yes" 0 12000000 0 5 "C" "A" 86400 0]

/-- A sample filter state with non-trivial selections. -/
def stateW : FilterState where
  vehicle_types := ["Bus", "Plane"]
  trip_reasons := []
  domestic_filter := ["Yes", "No"]
  cancel_filter := [0]
  gender_filter := [some "Male", none]
  price_lo := 0
  price_hi := 20000000

/-- A filter state whose price range excludes every record. -/
def stateEmptyW : FilterState where
  vehicle_types := []
  trip_reasons := []
  domestic_filter := []
  cancel_filter := []
  gender_filter := []
  price_lo := 1
  price_hi := 0

/-- A 200-record table with 40 cancellations. -/
def df200 : List Record :=
  List.replicate 40 (mkR "Bus" "Work" "Yes" 1 500000 0 1 "A" "B" 0 86400) ++
  List.replicate 160 (mkR "Bus" "Work" "Yes" 0 500000 0 0 "A" "B" 0 86400)

/-- The route-tie scenario: A→B 15 times (appearing first), then C→D 15
times, then E→F 5 times. -/
def tableC2 : List Record :=
  List.replicate 15 (mkR "Bus" "Work" "Yes" 0 500000 0 1 "A" "B" 0 86400) ++
  List.replicate 15 (mkR "Bus" "Work" "Yes" 0 500000 0 1 "C" "D" 0 86400) ++
  List.replicate 5 (mkR "Bus" "Work" "Yes" 0 500000 0 1 "E" "F" 0 86400)

end Dashboard

open Dashboard

namespace Dashboard

/-! ### Helper lemmas -/

theorem mem_uniqueVals {α : Type} [DecidableEq α] (l : List α) (a : α) :
    a ∈ uniqueVals l ↔ a ∈ l := by
  induction l using uniqueVals.induct with
  | case1 => simp [uniqueVals]
  | case2 x xs ih =>
    rw [uniqueVals]
    by_cases hax : a = x
    · simp [hax]
    · simp only [List.mem_cons, hax, false_or]
      rw [ih, List.mem_filter]
      simp [hax]

theorem insertBy_perm {α : Type} (le : α → α → Bool) (x : α) (l : List α) :
    List.Perm (insertBy le x l) (x :: l) := by
  induction l with
  | nil => simp [insertBy]
  | cons y ys ih =>
    rw [insertBy]
    split
    · exact List.Perm.refl _
    · exact (ih.cons y).trans (List.Perm.swap x y ys)

theorem sortBy_perm {α : Type} (le : α → α → Bool) (l : List α) :
    List.Perm (sortBy le l) l := by
  induction l with
  | nil => exact List.Perm.refl _
  | cons x xs ih => exact (insertBy_perm le x (sortBy le xs)).trans (ih.cons x)

theorem insertBy_sorted {α : Type} {le : α → α → Bool}
    (htot : ∀ a b, le a b = true ∨ le b a = true)
    (htr : ∀ a b c, le a b = true → le b c = true → le a c = true)
    (x : α) {l : List α} (hl : l.Pairwise (fun a b => le a b = true)) :
    (insertBy le x l).Pairwise (fun a b => le a b = true) := by
  induction l with
  | nil => simp [insertBy]
  | cons y ys ih =>
    rw [insertBy]
    rcases List.pairwise_cons.1 hl with ⟨hy, hys⟩
    by_cases hxy : le x y = true
    · rw [if_pos hxy]
      refine List.pairwise_cons.2 ⟨?_, hl⟩
      intro z hz
      rcases List.mem_cons.1 hz with rfl | hz
      · exact hxy
      · exact htr x y z hxy (hy z hz)
    · rw [if_neg hxy]
      refine List.pairwise_cons.2 ⟨?_, ih hys⟩
      intro z hz
      have hz' := (insertBy_perm le x ys).mem_iff.1 hz
      rcases List.mem_cons.1 hz' with rfl | hz'
      · rcases htot z y with h | h
        · exact absurd h hxy
        · exact h
      · exact hy z hz'

theorem sortBy_sorted {α : Type} {le : α → α → Bool}
    (htot : ∀ a b, le a b = true ∨ le b a = true)
    (htr : ∀ a b c, le a b = true → le b c = true → le a c = true)
    (l : List α) : (sortBy le l).Pairwise (fun a b => le a b = true) := by
  induction l with
  | nil => simp [sortBy]
  | cons x xs ih => exact insertBy_sorted htot htr x ih

theorem insertBy_stable {α : Type} {le : α → α → Bool} {R : α → α → Prop}
    (x : α) {l : List α}
    (hl : l.Pairwise (fun a b => le b a = true → R a b))
    (hx : ∀ y ∈ l, R x y) :
    (insertBy le x l).Pairwise (fun a b => le b a = true → R a b) := by
  induction l with
  | nil => simp [insertBy]
  | cons y ys ih =>
    rw [insertBy]
    rcases List.pairwise_cons.1 hl with ⟨hy, hys⟩
    by_cases hxy : le x y = true
    · rw [if_pos hxy]
      refine List.pairwise_cons.2 ⟨?_, hl⟩
      intro z hz _
      exact hx z hz
    · rw [if_neg hxy]
      refine List.pairwise_cons.2
        ⟨?_, ih hys (fun z hz => hx z (List.mem_cons_of_mem y hz))⟩
      intro z hz hle
      have hz' := (insertBy_perm le x ys).mem_iff.1 hz
      rcases List.mem_cons.1 hz' with rfl | hz'
      · exact absurd hle hxy
      · exact hy z hz' hle

theorem sortBy_stable {α : Type} {le : α → α → Bool} {R : α → α → Prop}
    {l : List α} (hl : l.Pairwise R) :
    (sortBy le l).Pairwise (fun a b => le b a = true → R a b) := by
  induction hl with
  | nil => simp [sortBy]
  | cons hx _ ih =>
    exact insertBy_stable _ ih (fun y hy => hx y ((sortBy_perm _ _).mem_iff.1 hy))

theorem applyCatFilter_eq {α : Type} [DecidableEq α] (sel : List α) (f : Record → α)
    (d : List Record) :
    applyCatFilter sel f d = d.filter (fun r => catPass sel (f r)) := by
  unfold applyCatFilter catPass
  by_cases h : sel.isEmpty <;> simp [h]

theorem dimFilter_eq (s : FilterState) (d : Dim) (t : List Record) :
    dimFilter s d t = t.filter (dimPass s d) := by
  cases d <;> simp [dimFilter, dimPass, applyCatFilter_eq]

theorem applyDims_eq_filter (s : FilterState) (order : List Dim) (df : List Record) :
    applyDims s order df = df.filter (fun r => order.all (fun d => dimPass s d r)) := by
  induction order generalizing df with
  | nil => simp [applyDims]
  | cons d ds ih =>
    have h1 : applyDims s (d :: ds) df = applyDims s ds (dimFilter s d df) := rfl
    rw [h1, ih, dimFilter_eq, List.filter_filter]
    apply List.filter_congr
    intro r _
    simp [Bool.and_comm]

theorem df_selection_eq_filter (df : List Record) (s : FilterState) :
    df_selection df s = df.filter (satisfiesAll s) := by
  have h : df_selection df s = applyDims s sourceOrder df := rfl
  rw [h, applyDims_eq_filter]
  apply List.filter_congr
  intro r _
  simp [sourceOrder, satisfiesAll, Dashboard.dimPass, Bool.and_assoc]

theorem satisfiesAll_iff (s : FilterState) (r : Record) :
    satisfiesAll s r = true ↔
      ((s.vehicle_types = [] ∨ r.Vehicle ∈ s.vehicle_types) ∧
       (s.trip_reasons = [] ∨ r.TripReason ∈ s.trip_reasons) ∧
       (s.domestic_filter = [] ∨ r.Domestic ∈ s.domestic_filter) ∧
       (s.cancel_filter = [] ∨ r.Cancel ∈ s.cancel_filter) ∧
       (s.gender_filter = [] ∨ gender r.Male ∈ s.gender_filter) ∧
       (s.price_lo ≤ r.Price ∧ r.Price ≤ s.price_hi)) := by
  simp [satisfiesAll, catPass, List.isEmpty_iff, and_assoc]

theorem foldl_min_le_init (l : List Int) (a : Int) : l.foldl min a ≤ a := by
  induction l generalizing a with
  | nil => simp
  | cons x xs ih =>
    rw [List.foldl_cons]
    exact le_trans (ih (min a x)) (min_le_left a x)

theorem foldl_min_le_mem {l : List Int} {b : Int} (h : b ∈ l) (a : Int) :
    l.foldl min a ≤ b := by
  induction l generalizing a with
  | nil => cases h
  | cons x xs ih =>
    rcases List.mem_cons.1 h with rfl | h'
    · exact le_trans (foldl_min_le_init xs _) (min_le_right a b)
    · exact ih h' _

theorem listMinI_le {l : List Int} {a : Int} (h : a ∈ l) : listMinI l ≤ a := by
  cases l with
  | nil => cases h
  | cons x xs =>
    rw [listMinI]
    rcases List.mem_cons.1 h with rfl | h'
    · exact foldl_min_le_init xs a
    · exact foldl_min_le_mem h' x

theorem init_le_foldl_max (l : List Int) (a : Int) : a ≤ l.foldl max a := by
  induction l generalizing a with
  | nil => simp
  | cons x xs ih =>
    rw [List.foldl_cons]
    exact le_trans (le_max_left a x) (ih (max a x))

theorem mem_le_foldl_max {l : List Int} {b : Int} (h : b ∈ l) (a : Int) :
    b ≤ l.foldl max a := by
  induction l generalizing a with
  | nil => cases h
  | cons x xs ih =>
    rcases List.mem_cons.1 h with rfl | h'
    · exact le_trans (le_max_right a b) (init_le_foldl_max xs _)
    · exact ih h' _

theorem le_listMaxI {l : List Int} {a : Int} (h : a ∈ l) : a ≤ listMaxI l := by
  cases l with
  | nil => cases h
  | cons x xs =>
    rw [listMaxI]
    rcases List.mem_cons.1 h with rfl | h'
    · exact init_le_foldl_max xs a
    · exact mem_le_foldl_max h' x

theorem foldl_min_mem (l : List Int) (a : Int) :
    l.foldl min a = a ∨ l.foldl min a ∈ l := by
  induction l generalizing a with
  | nil => left; rfl
  | cons x xs ih =>
    rw [List.foldl_cons]
    rcases ih (min a x) with h | h
    · rcases min_choice a x with h2 | h2
      · left; rw [h, h2]
      · right; rw [h, h2]; exact List.mem_cons_self x xs
    · right; exact List.mem_cons_of_mem x h

theorem foldl_max_mem (l : List Int) (a : Int) :
    l.foldl max a = a ∨ l.foldl max a ∈ l := by
  induction l generalizing a with
  | nil => left; rfl
  | cons x xs ih =>
    rw [List.foldl_cons]
    rcases ih (max a x) with h | h
    · rcases max_choice a x with h2 | h2
      · left; rw [h, h2]
      · right; rw [h, h2]; exact List.mem_cons_self x xs
    · right; exact List.mem_cons_of_mem x h

theorem listMinI_mem {l : List Int} (h : l ≠ []) : listMinI l ∈ l := by
  cases l with
  | nil => exact absurd rfl h
  | cons x xs =>
    rw [listMinI]
    rcases foldl_min_mem xs x with h2 | h2
    · rw [h2]; exact List.mem_cons_self x xs
    · exact List.mem_cons_of_mem x h2

theorem listMaxI_mem {l : List Int} (h : l ≠ []) : listMaxI l ∈ l := by
  cases l with
  | nil => exact absurd rfl h
  | cons x xs =>
    rw [listMaxI]
    rcases foldl_max_mem xs x with h2 | h2
    · rw [h2]; exact List.mem_cons_self x xs
    · exact List.mem_cons_of_mem x h2

theorem catPass_nil {α : Type} [DecidableEq α] (x : α) :
    catPass ([] : List α) x = true := by
  simp [catPass]

theorem catPass_uniqueVals {α : Type} [DecidableEq α] (f : Record → α)
    {df : List Record} {r : Record} (hr : r ∈ df) :
    catPass (uniqueVals (df.map f)) (f r) = true := by
  simp [catPass, (mem_uniqueVals _ _).2 (List.mem_map_of_mem f hr)]

end Dashboard

/-- Claim C1 (amended): `PriceCategory` is a pure function of `Price` over
the breakpoints 0, 1M, 5M, 10M, ∞ with left-open/right-closed intervals:
999,999 ↦ "<1M", 10,000,001 ↦ ">10M", prices outside the covered range
(`Price ≤ 0`) get the null category, and — right-closed at the
breakpoint — 1,000,000 ↦ "<1M". -/
theorem C1_priceCategory (p : ℤ) :
    priceCategory 999999 = some "<1M" ∧
    priceCategory 1000000 = some "<1M" ∧
    priceCategory 10000001 = some ">10M" ∧
    (p ≤ 0 → priceCategory p = none) ∧
    (0 < p → p ≤ 1000000 → priceCategory p = some "<1M") ∧
    (1000000 < p → p ≤ 5000000 → priceCategory p = some "1M-5M") ∧
    (5000000 < p → p ≤ 10000000 → priceCategory p = some "5M-10M") ∧
    (10000000 < p → priceCategory p = some ">10M") := by
  refine ⟨by decide, by decide, by decide, ?_, ?_, ?_, ?_, ?_⟩ <;>
    · intros
      unfold priceCategory
      split_ifs <;> first | rfl | (exfalso; omega)

/-- Claim C1 counterexample: at the breakpoint the claim says
`Price = 1,000,000 ↦ "1M-5M"`, but the code's right-closed intervals put
1,000,000 into `(0, 1M]`, labelled "<1M". -/
theorem C1_counterexample :
    priceCategory 1000000 = some "<1M" ∧ priceCategory 1000000 ≠ some "1M-5M" := by
  decide

/-- Claim C1 witness: the amended interval facts at concrete prices. -/
theorem C1_priceCategory_witness :
    priceCategory (-5) = none ∧ priceCategory 3000000 = some "1M-5M" :=
  ⟨(C1_priceCategory (-5)).2.2.2.1 (by decide),
   (C1_priceCategory 3000000).2.2.2.2.2.1 (by decide) (by decide)⟩

/-- Claim C3: the price slider's bounds and default span exactly the
`Price` values of the full loaded table (the minimum and maximum are
attained and bracket every price), and with every control at its default
the filtered view is the entire loaded table. -/
theorem C3_default_filters_full_table (df : List Record) (h : df ≠ []) :
    (defaultState df).price_lo ∈ df.map Record.Price ∧
    (defaultState df).price_hi ∈ df.map Record.Price ∧
    (∀ p ∈ df.map Record.Price,
      (defaultState df).price_lo ≤ p ∧ p ≤ (defaultState df).price_hi) ∧
    df_selection df (defaultState df) = df := by
  have hmap : df.map Record.Price ≠ [] := by
    cases df with
    | nil => exact absurd rfl h
    | cons x xs => simp
  refine ⟨listMinI_mem hmap, listMaxI_mem hmap,
    fun p hp => ⟨listMinI_le hp, le_listMaxI hp⟩, ?_⟩
  rw [df_selection_eq_filter]
  apply List.filter_eq_self.2
  intro r hr
  rw [satisfiesAll_iff]
  refine ⟨Or.inr ?_, Or.inr ?_, Or.inr ?_, Or.inr ?_, Or.inr ?_, ?_, ?_⟩
  · exact (mem_uniqueVals _ _).2 (List.mem_map_of_mem Record.Vehicle hr)
  · exact (mem_uniqueVals _ _).2 (List.mem_map_of_mem Record.TripReason hr)
  · exact (mem_uniqueVals _ _).2 (List.mem_map_of_mem Record.Domestic hr)
  · exact (mem_uniqueVals _ _).2 (List.mem_map_of_mem Record.Cancel hr)
  · exact (mem_uniqueVals _ _).2 (List.mem_map_of_mem (fun r => gender r.Male) hr)
  · exact listMinI_le (List.mem_map_of_mem Record.Price hr)
  · exact le_listMaxI (List.mem_map_of_mem Record.Price hr)

/-- Claim C3 witness: on a concrete table the default filter state
reproduces the whole table. -/
theorem C3_witness : df_selection dfW (defaultState dfW) = dfW :=
  (C3_default_filters_full_table dfW (by decide)).2.2.2

/-- Claim C6: for each of the five categorical dimensions, an empty
selection yields the same filtered view as selecting that dimension's
full set of distinct values: the no-filter policy, not
exclude-everything. -/
theorem C6_empty_selection_eq_full (df : List Record) (s : FilterState) :
    (df_selection df { s with vehicle_types := [] } =
      df_selection df { s with vehicle_types := uniqueVals (df.map Record.Vehicle) }) ∧
    (df_selection df { s with trip_reasons := [] } =
      df_selection df { s with trip_reasons := uniqueVals (df.map Record.TripReason) }) ∧
    (df_selection df { s with domestic_filter := [] } =
      df_selection df { s with domestic_filter := uniqueVals (df.map Record.Domestic) }) ∧
    (df_selection df { s with cancel_filter := [] } =
      df_selection df { s with cancel_filter := uniqueVals (df.map Record.Cancel) }) ∧
    (df_selection df { s with gender_filter := [] } =
      df_selection df { s with gender_filter := uniqueVals (df.map (fun r => gender r.Male)) }) := by
  refine ⟨?_, ?_, ?_, ?_, ?_⟩ <;>
    rw [df_selection_eq_filter, df_selection_eq_filter] <;>
    apply List.filter_congr <;>
    intro r hr
  · simp [satisfiesAll, catPass_nil, catPass_uniqueVals Record.Vehicle hr]
  · simp [satisfiesAll, catPass_nil, catPass_uniqueVals Record.TripReason hr]
  · simp [satisfiesAll, catPass_nil, catPass_uniqueVals Record.Domestic hr]
  · simp [satisfiesAll, catPass_nil, catPass_uniqueVals Record.Cancel hr]
  · simp [satisfiesAll, catPass_nil, catPass_uniqueVals (fun r => gender r.Male) hr]

/-- Claim C7: filter application is order-independent: any permutation of
the six per-dimension filters produces the filter of the conjunction of
all predicates, which is also what the source's fixed order produces; a
record passes iff it satisfies every dimension (membership — OR over the
selected values — for each non-empty categorical selection, and the
inclusive price range). -/
theorem C7_filter_composition (df : List Record) (s : FilterState)
    (order : List Dim) (h : order.Perm sourceOrder) :
    applyDims s order df = df.filter (satisfiesAll s) ∧
    df_selection df s = df.filter (satisfiesAll s) ∧
    (∀ r : Record, satisfiesAll s r = true ↔
      ((s.vehicle_types = [] ∨ r.Vehicle ∈ s.vehicle_types) ∧
       (s.trip_reasons = [] ∨ r.TripReason ∈ s.trip_reasons) ∧
       (s.domestic_filter = [] ∨ r.Domestic ∈ s.domestic_filter) ∧
       (s.cancel_filter = [] ∨ r.Cancel ∈ s.cancel_filter) ∧
       (s.gender_filter = [] ∨ gender r.Male ∈ s.gender_filter) ∧
       (s.price_lo ≤ r.Price ∧ r.Price ≤ s.price_hi))) := by
  refine ⟨?_, df_selection_eq_filter df s, satisfiesAll_iff s⟩
  have hall : ∀ r : Record,
      (order.all (fun d => dimPass s d r)) = (sourceOrder.all (fun d => dimPass s d r)) := by
    intro r
    rw [Bool.eq_iff_iff, List.all_eq_true, List.all_eq_true]
    exact ⟨fun hh d hd => hh d (h.mem_iff.2 hd), fun hh d hd => hh d (h.mem_iff.1 hd)⟩
  calc applyDims s order df
      = df.filter (fun r => order.all (fun d => dimPass s d r)) :=
        applyDims_eq_filter s order df
    _ = df.filter (fun r => sourceOrder.all (fun d => dimPass s d r)) :=
        List.filter_congr (fun r _ => hall r)
    _ = applyDims s sourceOrder df := (applyDims_eq_filter s sourceOrder df).symm
    _ = df_selection df s := rfl
    _ = df.filter (satisfiesAll s) := df_selection_eq_filter df s

/-- Claim C7 witness: applying the six filters in the reverse of the
source order on a concrete table and state gives the conjunction
filter. -/
theorem C7_witness :
    applyDims stateW
      [Dim.price, Dim.gender, Dim.cancel, Dim.domestic, Dim.trip, Dim.vehicle] dfW =
      dfW.filter (satisfiesAll stateW) :=
  (C7_filter_composition dfW stateW _ (by decide)).1

/-- C9: `DaysUntilDeparture` is the whole-day (floor) difference between
`DepartureTime` and `Created`, and it is strictly negative — not clamped
— whenever the departure precedes the creation timestamp. -/
theorem C9_daysUntilDeparture (r : Record) :
    daysUntilDeparture r = ⌊((r.DepartureTime - r.Created : ℤ) : ℚ) / 86400⌋ ∧
      (r.DepartureTime < r.Created → daysUntilDeparture r < 0) := by
  have hfd : daysUntilDeparture r = (r.DepartureTime - r.Created) / 86400 := by
    rw [daysUntilDeparture, Int.fdiv_eq_ediv _ (by norm_num)]
  constructor
  · rw [hfd]
    have h86 : (86400 : ℚ) = ((86400 : ℕ) : ℚ) := by norm_num
    rw [h86, Rat.floor_intCast_div_natCast]
    norm_num
  · intro h
    rw [hfd]
    exact Int.ediv_neg' (by omega) (by norm_num)

/-- C9 witness: a departure 100,000 seconds (≈1.16 days) before creation
gives a negative whole-day difference. -/
theorem C9_daysUntilDeparture_witness :
    daysUntilDeparture
      { Vehicle := "Bus", TripReason := "Work", Domestic := "1", Cancel := 0,
        Price := 500000, CouponDiscount := 0, Male := 1, From := "A", To := "B",
        Created := 100000, DepartureTime := 0 } < 0 :=
  (C9_daysUntilDeparture _).2 (by decide)

/-- Claim C4: emptiness of the filtered view gates the whole page: an
empty view makes the warning banner the sole output of the render pass
(nothing downstream is computed), and a non-empty view produces the full
page — the four metrics, the chart series, the two summary tables and
the raw preview with its dimensions. -/
theorem C4_empty_gating (df : List Record) (s : FilterState) (bins : ℕ) :
    ((df_selection df s).isEmpty = true →
      render df s bins =
        .warning "No data available for the selected filters. Please adjust your selection.") ∧
    ((df_selection df s).isEmpty = false →
      render df s bins =
        .page (metrics (df_selection df s)) (charts (df_selection df s) bins)
          { summary := summary_table (df_selection df s),
            routes := route_counts (df_selection df s) }
          (df_selection df s) (df_selection df s).length 14) := by
  constructor <;> intro h <;> simp [render, h]

/-- Claim C4 witness: a concrete empty filter state renders only the
warning, and a concrete non-empty one renders the full page. -/
theorem C4_witness :
    render dfW stateEmptyW 50 =
      .warning "No data available for the selected filters. Please adjust your selection." ∧
    render dfW stateW 50 =
      .page (metrics (df_selection dfW stateW)) (charts (df_selection dfW stateW) 50)
        { summary := summary_table (df_selection dfW stateW),
          routes := route_counts (df_selection dfW stateW) }
        (df_selection dfW stateW) (df_selection dfW stateW).length 14 :=
  ⟨(C4_empty_gating dfW stateEmptyW 50).1 (by decide),
   (C4_empty_gating dfW stateW 50).2 (by decide)⟩

/-- Claim C5: on a non-empty filtered view the cancellation-rate metric
equals (sum of `Cancel`) / (record count) × 100, and the record count is
non-zero, so the division is safe. -/
theorem C5_cancellation_rate (v : List Record) (h : v ≠ []) :
    (metrics v).cancellation_rate =
      ((v.map Record.Cancel).sum : ℚ) / ((metrics v).total_tickets : ℚ) * 100 ∧
    ((metrics v).total_tickets : ℚ) ≠ 0 := by
  have hlen : v.length ≠ 0 := fun hh => h (List.length_eq_zero.1 hh)
  exact ⟨rfl, by exact_mod_cast hlen⟩

set_option maxRecDepth 8000 in
/-- Claim C5 witness: 200 records with 40 cancellations give rate 20,
rendered "20.0%" at one decimal place. -/
theorem C5_witness :
    (metrics df200).cancellation_rate = 20 ∧
    fmtPct1 (metrics df200).cancellation_rate = "20.0%" := by
  have h := C5_cancellation_rate df200 (by decide)
  have hsum : (df200.map Record.Cancel).sum = 40 := by decide
  have htot : (metrics df200).total_tickets = 200 := by decide
  have h2 : (metrics df200).cancellation_rate = 20 := by
    rw [h.1, hsum, htot]; norm_num
  refine ⟨h2, ?_⟩
  rw [h2]
  have hr : round ((20 : ℚ) * 10) = 200 := by norm_num [round_eq]
  simp only [fmtPct1, hr]
  decide

theorem value_counts_sum {α : Type} [DecidableEq α] (l : List α) :
    ((value_counts l).map Prod.snd).sum = l.length := by
  unfold value_counts
  rw [List.map_reverse, List.sum_reverse]
  have hperm :=
    (sortBy_perm (fun a b : α × ℕ => decide (a.2 ≤ b.2))
      (l.dedup.map (fun k => (k, l.count k)))).map Prod.snd
  rw [hperm.sum_eq, List.map_map]
  exact List.sum_map_count_dedup_eq_length l

theorem length_filterMap_gender (v : List Record) :
    (v.filterMap (fun r => gender r.Male)).length =
      (v.filter (fun r => (gender r.Male).isSome)).length := by
  induction v with
  | nil => rfl
  | cons r rest ih =>
    cases h : gender r.Male <;>
      simp [List.filterMap_cons, List.filter_cons, h, ih]

/-- Claim C10: a record whose `Male` is neither 0 nor 1 gets the null
`Gender` at load time; it counts in Total Tickets but in no bar of the
gender chart, so the gender chart's counts sum to at most the Total
Tickets metric, with equality exactly when every record of the view has
`Male ∈ {0, 1}`. -/
theorem C10_gender_counts (v : List Record) :
    (∀ r : Record, ¬(r.Male = 0 ∨ r.Male = 1) → gender r.Male = none) ∧
    ((gender_counts v).map Prod.snd).sum ≤ (metrics v).total_tickets ∧
    (((gender_counts v).map Prod.snd).sum = (metrics v).total_tickets ↔
      ∀ r ∈ v, r.Male = 0 ∨ r.Male = 1) := by
  have hsum : ((gender_counts v).map Prod.snd).sum =
      (v.filter (fun r => (gender r.Male).isSome)).length := by
    rw [gender_counts, value_counts_sum, length_filterMap_gender]
  have hiff : ∀ r : Record,
      (gender r.Male).isSome = true ↔ (r.Male = 0 ∨ r.Male = 1) := by
    intro r
    unfold gender
    by_cases h1 : r.Male = 1 <;> by_cases h0 : r.Male = 0 <;> simp [h0, h1]
  refine ⟨?_, ?_, ?_⟩
  · intro r hr
    have h1 : r.Male ≠ 1 := fun hh => hr (Or.inr hh)
    have h0 : r.Male ≠ 0 := fun hh => hr (Or.inl hh)
    simp [gender, h0, h1]
  · rw [hsum]
    exact List.length_filter_le _ v
  · rw [hsum]
    show (v.filter _).length = v.length ↔ _
    rw [← List.countP_eq_length_filter, List.countP_eq_length]
    constructor
    · intro hh r hr
      exact (hiff r).1 (hh r hr)
    · intro hh r hr
      exact (hiff r).2 (hh r hr)

/-- Claim C10 witness: on the sample table (one record has `Male = 5`)
the gender-chart counts sum to at most the total, and a concrete `Male = 5`
record gets the null gender. -/
theorem C10_witness :
    ((gender_counts dfW).map Prod.snd).sum ≤ (metrics dfW).total_tickets ∧
    gender (mkR "Bus" "Work" "Yes" 0 1 0 5 "A" "B" 0 0).Male = none :=
  ⟨(C10_gender_counts dfW).2.1,
   (C10_gender_counts dfW).1 (mkR "Bus" "Work" "Yes" 0 1 0 5 "A" "B" 0 0) (by decide)⟩

theorem pairLE_total (a b : String × String) :
    pairLE a b = true ∨ pairLE b a = true := by
  unfold pairLE
  rcases lt_trichotomy (strKey a.1) (strKey b.1) with h | h | h
  · exact Or.inl (decide_eq_true (Or.inl h))
  · rcases le_total (strKey a.2) (strKey b.2) with h2 | h2
    · exact Or.inl (decide_eq_true (Or.inr ⟨h, h2⟩))
    · exact Or.inr (decide_eq_true (Or.inr ⟨h.symm, h2⟩))
  · exact Or.inr (decide_eq_true (Or.inl h))

theorem pairLE_trans (a b c : String × String)
    (h1 : pairLE a b = true) (h2 : pairLE b c = true) : pairLE a c = true := by
  unfold pairLE at *
  rw [decide_eq_true_eq] at *
  rcases h1 with h1 | ⟨h1e, h1le⟩ <;> rcases h2 with h2 | ⟨h2e, h2le⟩
  · exact Or.inl (lt_trans h1 h2)
  · exact Or.inl (h2e ▸ h1)
  · exact Or.inl (h1e ▸ h2)
  · exact Or.inr ⟨h1e.trans h2e, le_trans h1le h2le⟩

theorem countLE_total (a b : (String × String) × ℕ) :
    decide (a.2 ≤ b.2) = true ∨ decide (b.2 ≤ a.2) = true := by
  rcases Nat.le_total a.2 b.2 with h | h
  · exact Or.inl (decide_eq_true h)
  · exact Or.inr (decide_eq_true h)

theorem countLE_trans (a b c : (String × String) × ℕ)
    (h1 : decide (a.2 ≤ b.2) = true) (h2 : decide (b.2 ≤ c.2) = true) :
    decide (a.2 ≤ c.2) = true := by
  rw [decide_eq_true_eq] at *
  exact le_trans h1 h2

theorem route_counts_eq (v : List Record) :
    route_counts v =
      ((sortBy (fun a b => decide (a.2 ≤ b.2))
        ((sortBy pairLE (v.map (fun r => (r.From, r.To))).dedup).map
          (fun k => (k, v.countP (fun r => decide ((r.From, r.To) = k)))))).reverse).take 10 :=
  rfl

/-- Claim C2 (amended): the Top-10 routes table groups the filtered view
by the (From, To) pair, counts occurrences, sorts descending by count and
takes the first 10 — but ties at equal count appear in DESCENDING
lexicographic key order (the consequence of `groupby`'s ascending key
pre-sort followed by a reversed stable ascending sort), not in first-seen
order.  Each output row carries the exact count of its pair, pairs come
from the view, the counts are non-increasing, and tied neighbours have
strictly descending keys. -/
theorem C2_route_counts (v : List Record) :
    (route_counts v).length = min 10 (v.map (fun r => (r.From, r.To))).dedup.length ∧
    (∀ p ∈ route_counts v,
      p.2 = v.countP (fun r => decide ((r.From, r.To) = p.1)) ∧
      p.1 ∈ v.map (fun r => (r.From, r.To))) ∧
    (route_counts v).Pairwise (fun a b => b.2 ≤ a.2) ∧
    (route_counts v).Pairwise
      (fun a b => a.2 = b.2 → (pairLE b.1 a.1 = true ∧ b.1 ≠ a.1)) := by
  have hkeysPerm := sortBy_perm pairLE (v.map (fun r => (r.From, r.To))).dedup
  have hgroupsPerm := sortBy_perm (fun a b : (String × String) × ℕ => decide (a.2 ≤ b.2))
    ((sortBy pairLE (v.map (fun r => (r.From, r.To))).dedup).map
      (fun k => (k, v.countP (fun r => decide ((r.From, r.To) = k)))))
  refine ⟨?_, ?_, ?_, ?_⟩
  · rw [route_counts_eq, List.length_take, List.length_reverse,
      hgroupsPerm.length_eq, List.length_map, hkeysPerm.length_eq]
  · intro p hp
    rw [route_counts_eq] at hp
    have hp2 := (List.take_sublist 10 _).mem hp
    rw [List.mem_reverse] at hp2
    have hp3 := hgroupsPerm.mem_iff.1 hp2
    rcases List.mem_map.1 hp3 with ⟨k, hk, rfl⟩
    refine ⟨rfl, ?_⟩
    exact List.mem_dedup.1 (hkeysPerm.mem_iff.1 hk)
  · rw [route_counts_eq]
    refine List.Pairwise.sublist (List.take_sublist 10 _) ?_
    rw [List.pairwise_reverse]
    have hs := sortBy_sorted countLE_total countLE_trans
      ((sortBy pairLE (v.map (fun r => (r.From, r.To))).dedup).map
        (fun k => (k, v.countP (fun r => decide ((r.From, r.To) = k)))))
    exact hs.imp (fun h => of_decide_eq_true h)
  · rw [route_counts_eq]
    refine List.Pairwise.sublist (List.take_sublist 10 _) ?_
    rw [List.pairwise_reverse]
    -- the group list is strictly ascending in its (From, To) key
    have hkeysSorted : ((sortBy pairLE (v.map (fun r => (r.From, r.To))).dedup).Pairwise
        (fun a b => pairLE a b = true)) :=
      sortBy_sorted pairLE_total pairLE_trans _
    have hkeysNodup : (sortBy pairLE (v.map (fun r => (r.From, r.To))).dedup).Nodup :=
      hkeysPerm.nodup_iff.2 (List.nodup_dedup _)
    have hkeysStrict : ((sortBy pairLE (v.map (fun r => (r.From, r.To))).dedup).Pairwise
        (fun a b => pairLE a b = true ∧ a ≠ b)) :=
      hkeysSorted.and hkeysNodup
    have hgroups : (((sortBy pairLE (v.map (fun r => (r.From, r.To))).dedup).map
        (fun k => (k, v.countP (fun r => decide ((r.From, r.To) = k))))).Pairwise
        (fun a b => pairLE a.1 b.1 = true ∧ a.1 ≠ b.1)) := by
      rw [List.pairwise_map]
      exact hkeysStrict.imp (fun h => ⟨h.1, h.2⟩)
    have hstable := @sortBy_stable ((String × String) × ℕ)
      (fun a b => decide (a.2 ≤ b.2)) _ _ hgroups
    refine hstable.imp ?_
    intro a b hab heq
    exact hab (decide_eq_true (le_of_eq heq))

set_option maxRecDepth 16000 in
/-- Claim C2 counterexample: with A→B ×15 first-seen before C→D ×15 (and
E→F ×5), the code outputs C→D before A→B: `groupby` pre-sorts the groups
by key and the descending sort reverses the tied pair, so the tie at
count 15 does not preserve first-seen order as claimed. -/
theorem C2_counterexample :
    route_counts tableC2 =
      [(("C", "D"), 15), (("A", "B"), 15), (("E", "F"), 5)] ∧
    (tableC2.map (fun r => (r.From, r.To))).indexOf ("A", "B") <
      (tableC2.map (fun r => (r.From, r.To))).indexOf ("C", "D") := by
  constructor <;> decide

theorem histEdge_zero (mn mx : ℚ) (k : ℕ) : histEdge mn mx k 0 = mn := by
  unfold histEdge
  simp

theorem histEdge_last {mn mx : ℚ} {k : ℕ} (hk : (k : ℚ) ≠ 0) :
    histEdge mn mx k k = mx := by
  unfold histEdge
  rw [mul_div_assoc, div_self hk, mul_one]
  ring

theorem histEdge_mono {mn mx : ℚ} (hle : mn ≤ mx) {k : ℕ} (hk : 0 < (k : ℚ))
    {i j : ℕ} (hij : i ≤ j) : histEdge mn mx k i ≤ histEdge mn mx k j := by
  unfold histEdge
  have hij' : (i : ℚ) ≤ j := by exact_mod_cast hij
  have h1 : (mx - mn) * i ≤ (mx - mn) * j :=
    mul_le_mul_of_nonneg_left hij' (by linarith)
  have h2 : (mx - mn) * i / k ≤ (mx - mn) * j / k := (div_le_div_right hk).2 h1
  linarith

theorem histEdge_lt_iff {mn mx : ℚ} (hw : 0 < mx - mn) {k : ℕ} (hk : 0 < (k : ℚ))
    (p : ℚ) (i : ℕ) :
    (histEdge mn mx k i < p) ↔ (i : ℚ) < (p - mn) * k / (mx - mn) := by
  unfold histEdge
  rw [lt_div_iff hw, mul_comm ((i : ℚ)) (mx - mn)]
  constructor
  · intro h
    have h2 : (mx - mn) * i / k < p - mn := by linarith
    exact (div_lt_iff hk).1 h2
  · intro h
    have h2 : (mx - mn) * i / k < p - mn := (div_lt_iff hk).2 h
    linarith

theorem le_histEdge_iff {mn mx : ℚ} (hw : 0 < mx - mn) {k : ℕ} (hk : 0 < (k : ℚ))
    (p : ℚ) (i : ℕ) :
    (p ≤ histEdge mn mx k i) ↔ (p - mn) * k / (mx - mn) ≤ (i : ℚ) := by
  unfold histEdge
  rw [div_le_iff hw, mul_comm ((i : ℚ)) (mx - mn)]
  constructor
  · intro h
    have h2 : p - mn ≤ (mx - mn) * i / k := by linarith
    exact (le_div_iff hk).1 h2
  · intro h
    have h2 : p - mn ≤ (mx - mn) * i / k := (le_div_iff hk).2 h
    linarith

theorem countP_eq_one_of_unique {α : Type} (l : List α) (p : α → Bool) (a : α)
    (hnd : l.Nodup) (ha : a ∈ l) (hpa : p a = true)
    (huniq : ∀ b ∈ l, p b = true → b = a) : l.countP p = 1 := by
  induction l with
  | nil => cases ha
  | cons x xs ih =>
    rw [List.countP_cons]
    rcases List.mem_cons.1 ha with rfl | ha'
    · have hxs : xs.countP p = 0 := by
        rw [List.countP_eq_zero]
        intro b hb hpb
        have hba := huniq b (List.mem_cons_of_mem _ hb) hpb
        rw [hba] at hb
        exact (List.nodup_cons.1 hnd).1 hb
      rw [hxs, hpa]
      simp
    · have hpx : p x = false := by
        by_cases hh : p x = true
        · have hxa := huniq x (List.mem_cons_self x xs) hh
          have hxin : x ∈ xs := by rw [hxa]; exact ha'
          exact absurd hxin (List.nodup_cons.1 hnd).1
        · exact Bool.eq_false_iff.2 hh
      rw [hpx]
      have := ih (List.nodup_cons.1 hnd).2 ha'
        (fun b hb hpb => huniq b (List.mem_cons_of_mem x hb) hpb)
      simpa using this

theorem sum_map_ite_one {β : Type} (bs : List β) (q : β → Bool) :
    (bs.map (fun b => if q b = true then 1 else 0)).sum = bs.countP q := by
  induction bs with
  | nil => rfl
  | cons b bs ih =>
    rw [List.map_cons, List.sum_cons, List.countP_cons, ih]
    by_cases h : q b = true <;> simp [h, Nat.add_comm]

theorem sum_map_add_nat {β : Type} (bs : List β) (f g : β → ℕ) :
    (bs.map (fun b => f b + g b)).sum = (bs.map f).sum + (bs.map g).sum := by
  induction bs with
  | nil => rfl
  | cons b bs ih =>
    simp only [List.map_cons, List.sum_cons, ih]
    omega

theorem sum_map_one {α : Type} (v : List α) :
    (v.map (fun _ => (1 : ℕ))).sum = v.length := by
  induction v with
  | nil => rfl
  | cons x xs ih => simp [ih, Nat.add_comm]

theorem sum_map_filter_length {α β : Type} (bs : List β) (v : List α)
    (P : β → α → Bool) :
    (bs.map (fun b => (v.filter (P b)).length)).sum =
      (v.map (fun a => bs.countP (fun b => P b a))).sum := by
  induction v with
  | nil => simp
  | cons x xs ih =>
    have hsplit : (fun b => ((x :: xs).filter (P b)).length) =
        (fun b => (if P b x = true then 1 else 0) + (xs.filter (P b)).length) := by
      funext b
      rw [List.filter_cons]
      by_cases h : P b x = true <;> simp [h, Nat.add_comm]
    rw [hsplit, sum_map_add_nat, sum_map_ite_one, List.map_cons, List.sum_cons, ih]

theorem inBin_unique {mn mx : ℚ} (hle : mn ≤ mx) {k : ℕ} (hk : 0 < k)
    {p : ℚ} (hp1 : mn ≤ p) (hp2 : p ≤ mx) :
    (List.range k).countP (fun i => inBin mn mx k i p) = 1 := by
  have hkq : 0 < (k : ℚ) := by exact_mod_cast hk
  by_cases hp0 : p ≤ histEdge mn mx k 1
  · apply countP_eq_one_of_unique (List.range k) _ 0 (List.nodup_range k)
      (List.mem_range.2 hk)
    · rw [inBin, if_pos rfl]
      exact decide_eq_true ⟨hp1, hp0⟩
    · intro b hb hpb
      by_contra hbne
      rw [inBin, if_neg hbne, decide_eq_true_eq] at hpb
      have h1b : (1 : ℕ) ≤ b := Nat.one_le_iff_ne_zero.2 hbne
      have := histEdge_mono hle hkq h1b
      linarith [hpb.1]
  · push_neg at hp0
    have hw : 0 < mx - mn := by
      by_contra hww
      push_neg at hww
      have hmx : mx = mn := le_antisymm (by linarith) hle
      have h1 : histEdge mn mx k 1 = mn := by
        unfold histEdge
        rw [hmx]
        simp
      rw [h1] at hp0
      rw [hmx] at hp2
      linarith
    have ht1 : 1 < (p - mn) * k / (mx - mn) := by
      have := (histEdge_lt_iff hw hkq p 1).1 hp0
      simpa using this
    have htk : (p - mn) * k / (mx - mn) ≤ (k : ℚ) := by
      have hlast : p ≤ histEdge mn mx k k := by
        rw [histEdge_last (ne_of_gt hkq)]
        exact hp2
      exact (le_histEdge_iff hw hkq p k).1 hlast
    have hc2 : 2 ≤ ⌈(p - mn) * k / (mx - mn)⌉ := by
      have h1 : (1 : ℤ) < ⌈(p - mn) * k / (mx - mn)⌉ := Int.lt_ceil.2 (by exact_mod_cast ht1)
      omega
    have hck : ⌈(p - mn) * k / (mx - mn)⌉ ≤ (k : ℤ) := Int.ceil_le.2 (by exact_mod_cast htk)
    have hi0z : (((⌈(p - mn) * k / (mx - mn)⌉ - 1).toNat : ℤ)) =
        ⌈(p - mn) * k / (mx - mn)⌉ - 1 := Int.toNat_of_nonneg (by omega)
    have hi0q : (((⌈(p - mn) * k / (mx - mn)⌉ - 1).toNat : ℚ)) =
        ((⌈(p - mn) * k / (mx - mn)⌉ : ℤ) : ℚ) - 1 := by
      rw [← Int.cast_natCast (R := ℚ), hi0z]
      push_cast
      ring
    have hkey : ∀ i : ℕ, i ≠ 0 →
        (inBin mn mx k i p = true ↔
          ((i : ℚ) < (p - mn) * k / (mx - mn) ∧ (p - mn) * k / (mx - mn) ≤ (i : ℚ) + 1)) := by
      intro i hi
      rw [inBin, if_neg hi, decide_eq_true_eq]
      constructor
      · rintro ⟨ha, hb⟩
        refine ⟨(histEdge_lt_iff hw hkq p i).1 ha, ?_⟩
        have := (le_histEdge_iff hw hkq p (i + 1)).1 hb
        push_cast at this
        linarith
      · rintro ⟨ha, hb⟩
        refine ⟨(histEdge_lt_iff hw hkq p i).2 ha, (le_histEdge_iff hw hkq p (i + 1)).2 ?_⟩
        push_cast
        linarith
    apply countP_eq_one_of_unique (List.range k) _
      ((⌈(p - mn) * k / (mx - mn)⌉ - 1).toNat) (List.nodup_range k) (List.mem_range.2 (by omega))
    · have hi0ne : ((⌈(p - mn) * k / (mx - mn)⌉ - 1).toNat) ≠ 0 := by omega
      rw [hkey _ hi0ne]
      constructor
      · rw [hi0q]
        have := Int.ceil_lt_add_one ((p - mn) * k / (mx - mn))
        linarith
      · rw [hi0q]
        have := Int.le_ceil ((p - mn) * k / (mx - mn))
        linarith
    · intro b hb hpb
      have hbne : b ≠ 0 := by
        intro hb0
        rw [hb0, inBin, if_pos rfl, decide_eq_true_eq] at hpb
        have h1 : histEdge mn mx 1 1 = mx := histEdge_last (by norm_num)
        linarith [hpb.2]
      rw [hkey b hbne] at hpb
      have h1 : (b : ℤ) < ⌈(p - mn) * k / (mx - mn)⌉ := Int.lt_ceil.2 (by exact_mod_cast hpb.1)
      have h2 : ⌈(p - mn) * k / (mx - mn)⌉ ≤ (b : ℤ) + 1 := by
        apply Int.ceil_le.2
        push_cast
        exact hpb.2
      omega

theorem histEdge_width {mn mx : ℚ} {k : ℕ} (hk : (k : ℚ) ≠ 0) (i : ℕ) :
    histEdge mn mx k (i + 1) - histEdge mn mx k i = (mx - mn) / k := by
  unfold histEdge
  push_cast
  field_simp
  ring

/-- Claim C8: for a non-empty view and any bin count `k ≥ 1` (the slider
offers 10–100, default 50), the price histogram has exactly `k` buckets;
every bucket is `(max−min)/k` wide; the first lower edge is the minimum
price and the last upper edge the maximum; each bucket carries its
numeric lower/upper edges; the buckets are listed ascending by lower
edge; and the buckets span the `Price` values: every record lands in
exactly one bucket, so the counts sum to the view's size. -/
theorem C8_price_histogram (v : List Record) (k : ℕ) (hv : v ≠ []) (hk : 0 < k) :
    (price_histogram v k).length = k ∧
    (∀ b ∈ price_histogram v k, b.2.1 - b.1 = (priceMaxQ v - priceMinQ v) / k) ∧
    ((price_histogram v k).head?.map Prod.fst = some (priceMinQ v)) ∧
    ((price_histogram v k).getLast?.map (fun b => b.2.1) = some (priceMaxQ v)) ∧
    (price_histogram v k).Pairwise (fun a b => a.1 ≤ b.1) ∧
    ((price_histogram v k).map (fun b => b.2.2)).sum = v.length := by
  have hkq : 0 < (k : ℚ) := by exact_mod_cast hk
  have hmap : v.map Record.Price ≠ [] := by
    cases v with
    | nil => exact absurd rfl hv
    | cons x xs => simp
  have hle : priceMinQ v ≤ priceMaxQ v := by
    simp only [priceMinQ, priceMaxQ]
    exact_mod_cast listMinI_le (listMaxI_mem hmap)
  refine ⟨?_, ?_, ?_, ?_, ?_, ?_⟩
  · simp [price_histogram]
  · intro b hb
    rw [price_histogram] at hb
    rcases List.mem_map.1 hb with ⟨i, _, rfl⟩
    exact histEdge_width (ne_of_gt hkq) i
  · obtain ⟨k', rfl⟩ : ∃ k', k = k' + 1 := ⟨k - 1, by omega⟩
    rw [price_histogram, List.range_succ_eq_map, List.map_cons]
    simp [histEdge_zero]
  · obtain ⟨k', rfl⟩ : ∃ k', k = k' + 1 := ⟨k - 1, by omega⟩
    rw [price_histogram, List.range_succ, List.map_append]
    simp only [List.map_cons, List.map_nil, List.getLast?_concat, Option.map_some]
    rw [histEdge_last (ne_of_gt hkq)]
    rfl
  · rw [price_histogram, List.pairwise_map]
    exact (List.pairwise_lt_range k).imp
      (fun hij => histEdge_mono hle hkq (le_of_lt hij))
  · rw [price_histogram, List.map_map]
    have hcomp : ((fun b : ℚ × ℚ × ℕ => b.2.2) ∘
        (fun i => (histEdge (priceMinQ v) (priceMaxQ v) k i,
          histEdge (priceMinQ v) (priceMaxQ v) k (i + 1),
          (v.filter (fun r => inBin (priceMinQ v) (priceMaxQ v) k i (r.Price : ℚ))).length))) =
        (fun i => (v.filter
          (fun r => inBin (priceMinQ v) (priceMaxQ v) k i (r.Price : ℚ))).length) := rfl
    rw [hcomp,
      sum_map_filter_length (List.range k) v
        (fun i r => inBin (priceMinQ v) (priceMaxQ v) k i (r.Price : ℚ))]
    have hcongr : ∀ r ∈ v,
        (List.range k).countP
          (fun i => inBin (priceMinQ v) (priceMaxQ v) k i (r.Price : ℚ)) = 1 := by
      intro r hr
      apply inBin_unique hle hk
      · simp only [priceMinQ]
        exact_mod_cast listMinI_le (List.mem_map_of_mem Record.Price hr)
      · simp only [priceMaxQ]
        exact_mod_cast le_listMaxI (List.mem_map_of_mem Record.Price hr)
    rw [List.map_congr_left hcongr]
    exact sum_map_one v

/-- Claim C8 witness: on a concrete non-empty view, 10 bins give exactly
10 buckets and 100 bins give exactly 100 buckets. -/
theorem C8_witness :
    (price_histogram dfW 10).length = 10 ∧ (price_histogram dfW 100).length = 100 :=
  ⟨(C8_price_histogram dfW 10 (by decide) (by decide)).1,
   (C8_price_histogram dfW 100 (by decide) (by decide)).1⟩

set_option maxRecDepth 16000 in
/-- Claim C2 witness: the amended count property at a concrete output
row — the C→D row of the tie table carries the exact occurrence count
15. -/
theorem C2_witness :
    ((("C", "D"), 15) : (String × String) × ℕ).2 =
      tableC2.countP (fun r => decide ((r.From, r.To) = (("C", "D"), 15).1)) :=
  ((C2_route_counts tableC2).2.1 (("C", "D"), 15) (by decide)).1
